import Mathlib

/-!
Shallow embedding of the visitor-pattern demo (`src/main.rs`).

The Rust program defines a tree of `Thing` nodes (two container variants,
`Chest` and `Pile`, and two leaf variants, `Apple` and `Banana`), a
`Visitor` trait with four per-variant handlers (defaulting to no-ops) and a
`value` read-out, a one-level dispatcher `walk_things`, a convenience
composition `walk_chest`, and two concrete visitors: `InventoryCounter`
(full recursive count of apples and bananas) and `OnlyCheckChests`
(descends into chests, leaves `visit_pile` at its no-op default, so piles
are pruned).  Mutable visitor state (`&mut self`) is embedded as explicit
state passing: each handler maps a state and a node to a new state.
-/

/-- Leaf node `struct Apple;` — no payload. -/
inductive Apple where
  | mk : Apple
deriving DecidableEq, Repr

/-- Leaf node `struct Banana;` — no payload. -/
inductive Banana where
  | mk : Banana
deriving DecidableEq, Repr

mutual

/-- `enum Thing` — nodes of the parse tree: two container variants and two
leaf variants. -/
inductive Thing where
  | Chest : Chest → Thing
  | Pile : Pile → Thing
  | Apple : Apple → Thing
  | Banana : Banana → Thing

/-- `struct Chest` — two named ordered child sequences. -/
inductive Chest where
  | mk (upper_compartment lower_compartment : List Thing) : Chest

/-- `struct Pile` — three named ordered child sequences. -/
inductive Pile where
  | mk (surface inside lost_forever : List Thing) : Pile

end

/-- Field accessor `chest.upper_compartment`. -/
def Chest.upper_compartment : Chest → List Thing
  | .mk u _ => u

/-- Field accessor `chest.lower_compartment`. -/
def Chest.lower_compartment : Chest → List Thing
  | .mk _ l => l

/-- Field accessor `pile.surface`. -/
def Pile.surface : Pile → List Thing
  | .mk s _ _ => s

/-- Field accessor `pile.inside`. -/
def Pile.inside : Pile → List Thing
  | .mk _ i _ => i

/-- Field accessor `pile.lost_forever`. -/
def Pile.lost_forever : Pile → List Thing
  | .mk _ _ l => l

/-- The `Visitor` trait.  `S` is the visitor's own (mutable in Rust) state,
`V` its associated `Value` type.  Each `visit_*` method takes `&mut self`
and a node; here it maps a state to a state.  The trait gives every handler
a default no-op body, so an implementation may override only the handlers
it cares about. -/
structure Visitor (S : Type) (V : Type) where
  visit_chest : S → Chest → S := fun s _ => s
  visit_pile : S → Pile → S := fun s _ => s
  visit_apple : S → Apple → S := fun s _ => s
  visit_banana : S → Banana → S := fun s _ => s
  value : S → V

/-- The body of the `for` loop of `walk_things`: inspect the variant tag of
one node and invoke exactly one of the four handlers on it. -/
def dispatchOne {S V : Type} (vis : Visitor S V) (s : S) : Thing → S
  | .Chest chest => vis.visit_chest s chest
  | .Pile pile => vis.visit_pile s pile
  | .Apple apple => vis.visit_apple s apple
  | .Banana banana => vis.visit_banana s banana

/-- `fn walk_things` — one dispatch step per node of the slice, in order.
The Rust `for` loop over the slice is the left fold of `dispatchOne`. -/
def walk_things {S V : Type} (vis : Visitor S V) : S → List Thing → S
  | s, [] => s
  | s, thing :: things => walk_things vis (dispatchOne vis s thing) things

/-- `fn walk_chest` — walks the upper compartment, then the lower
compartment, in that fixed order. -/
def walk_chest {S V : Type} (vis : Visitor S V) (s : S) (chest : Chest) : S :=
  walk_things vis (walk_things vis s chest.upper_compartment) chest.lower_compartment

/-- `struct InventoryCounter` — two `usize` counters. -/
structure InventoryCounter where
  apples : Nat
  bananas : Nat
deriving DecidableEq, Repr

/-- `#[derive(Default)]` for `InventoryCounter`: both counters zero. -/
def InventoryCounter.mkDefault : InventoryCounter :=
  { apples := 0, bananas := 0 }

/-- `InventoryCounter::visit_apple` — increment the apple counter. -/
def InventoryCounter.visit_apple (s : InventoryCounter) (_ : Apple) : InventoryCounter :=
  { s with apples := s.apples + 1 }

/-- `InventoryCounter::visit_banana` — increment the banana counter. -/
def InventoryCounter.visit_banana (s : InventoryCounter) (_ : Banana) : InventoryCounter :=
  { s with bananas := s.bananas + 1 }

mutual

/-- One dispatch step of `walk_things` specialised to `InventoryCounter`:
the `match` in the loop body, routing each node to this visitor's
handler. -/
def InventoryCounter.dispatch (s : InventoryCounter) : Thing → InventoryCounter
  | .Chest chest => InventoryCounter.visit_chest s chest
  | .Pile pile => InventoryCounter.visit_pile s pile
  | .Apple apple => InventoryCounter.visit_apple s apple
  | .Banana banana => InventoryCounter.visit_banana s banana

/-- `walk_things` specialised to `InventoryCounter` (the generic function
instantiated at this visitor; needed as a mutual definition because this
visitor's `visit_chest` recurses through it). -/
def InventoryCounter.walkThings (s : InventoryCounter) : List Thing → InventoryCounter
  | [] => s
  | thing :: things => InventoryCounter.walkThings (InventoryCounter.dispatch s thing) things

/-- `InventoryCounter::visit_chest` — body is `walk_chest(self, v)`: walk
the upper compartment, then the lower compartment. -/
def InventoryCounter.visit_chest (s : InventoryCounter) : Chest → InventoryCounter
  | .mk upper lower => InventoryCounter.walkThings (InventoryCounter.walkThings s upper) lower

/-- `InventoryCounter::visit_pile` — walk `surface`, `inside`,
`lost_forever` in that order. -/
def InventoryCounter.visit_pile (s : InventoryCounter) : Pile → InventoryCounter
  | .mk surface inside lost =>
      InventoryCounter.walkThings
        (InventoryCounter.walkThings (InventoryCounter.walkThings s surface) inside) lost

end

/-- `InventoryCounter::value` — `format!("{} apples and {} bananas", ..)`. -/
def InventoryCounter.value (s : InventoryCounter) : String :=
  toString s.apples ++ " apples and " ++ toString s.bananas ++ " bananas"

/-- `InventoryCounter` packaged as an instance of the `Visitor` trait. -/
def InventoryCounter.visitor : Visitor InventoryCounter String where
  visit_chest := InventoryCounter.visit_chest
  visit_pile := InventoryCounter.visit_pile
  visit_apple := InventoryCounter.visit_apple
  visit_banana := InventoryCounter.visit_banana
  value := InventoryCounter.value

/-- `struct OnlyCheckChests` — two `usize` counters. -/
structure OnlyCheckChests where
  apples : Nat
  bananas : Nat
deriving DecidableEq, Repr

/-- `#[derive(Default)]` for `OnlyCheckChests`: both counters zero. -/
def OnlyCheckChests.mkDefault : OnlyCheckChests :=
  { apples := 0, bananas := 0 }

/-- `OnlyCheckChests::visit_apple` — increment the apple counter. -/
def OnlyCheckChests.visit_apple (s : OnlyCheckChests) (_ : Apple) : OnlyCheckChests :=
  { s with apples := s.apples + 1 }

/-- `OnlyCheckChests::visit_banana` — increment the banana counter. -/
def OnlyCheckChests.visit_banana (s : OnlyCheckChests) (_ : Banana) : OnlyCheckChests :=
  { s with bananas := s.bananas + 1 }

mutual

/-- One dispatch step of `walk_things` specialised to `OnlyCheckChests`.
`visit_pile` is not overridden by this visitor, so a `Pile` node hits the
trait's default no-op handler: the state passes through unchanged. -/
def OnlyCheckChests.dispatch (s : OnlyCheckChests) : Thing → OnlyCheckChests
  | .Chest chest => OnlyCheckChests.visit_chest s chest
  | .Pile _ => s
  | .Apple apple => OnlyCheckChests.visit_apple s apple
  | .Banana banana => OnlyCheckChests.visit_banana s banana

/-- `walk_things` specialised to `OnlyCheckChests`. -/
def OnlyCheckChests.walkThings (s : OnlyCheckChests) : List Thing → OnlyCheckChests
  | [] => s
  | thing :: things => OnlyCheckChests.walkThings (OnlyCheckChests.dispatch s thing) things

/-- `OnlyCheckChests::visit_chest` — calls `walk_things` on the upper
compartment, then on the lower compartment. -/
def OnlyCheckChests.visit_chest (s : OnlyCheckChests) : Chest → OnlyCheckChests
  | .mk upper lower => OnlyCheckChests.walkThings (OnlyCheckChests.walkThings s upper) lower

end

/-- `OnlyCheckChests::value` — the pair `(self.apples, self.bananas)`. -/
def OnlyCheckChests.value (s : OnlyCheckChests) : Nat × Nat :=
  (s.apples, s.bananas)

/-- `OnlyCheckChests` packaged as an instance of the `Visitor` trait;
`visit_pile` is left at the trait's default no-op. -/
def OnlyCheckChests.visitor : Visitor OnlyCheckChests (Nat × Nat) where
  visit_chest := OnlyCheckChests.visit_chest
  visit_apple := OnlyCheckChests.visit_apple
  visit_banana := OnlyCheckChests.visit_banana
  value := OnlyCheckChests.value

/-- The hardcoded sample tree built in `main`. -/
def sampleChest : Chest :=
  .mk
    [Thing.Chest (.mk [Thing.Apple .mk] [Thing.Banana .mk, Thing.Banana .mk])]
    [Thing.Apple .mk,
     Thing.Pile (.mk [Thing.Apple .mk, Thing.Apple .mk, Thing.Banana .mk]
       [Thing.Apple .mk] [Thing.Banana .mk])]

mutual

/-- Independent recursive count of `Apple` leaves in a node (not via the
visitor machinery): 1 per `Apple` leaf, summed over every child sequence
of both container variants. -/
def countApples : Thing → Nat
  | .Chest chest => countApplesChest chest
  | .Pile pile => countApplesPile pile
  | .Apple _ => 1
  | .Banana _ => 0

/-- Independent `Apple` count over a chest: both compartments. -/
def countApplesChest : Chest → Nat
  | .mk upper lower => countApplesList upper + countApplesList lower

/-- Independent `Apple` count over a pile: all three sequences. -/
def countApplesPile : Pile → Nat
  | .mk surface inside lost =>
      countApplesList surface + countApplesList inside + countApplesList lost

/-- Independent `Apple` count over a sequence of nodes. -/
def countApplesList : List Thing → Nat
  | [] => 0
  | thing :: things => countApples thing + countApplesList things

end

mutual

/-- Independent recursive count of `Banana` leaves in a node. -/
def countBananas : Thing → Nat
  | .Chest chest => countBananasChest chest
  | .Pile pile => countBananasPile pile
  | .Apple _ => 0
  | .Banana _ => 1

/-- Independent `Banana` count over a chest. -/
def countBananasChest : Chest → Nat
  | .mk upper lower => countBananasList upper + countBananasList lower

/-- Independent `Banana` count over a pile. -/
def countBananasPile : Pile → Nat
  | .mk surface inside lost =>
      countBananasList surface + countBananasList inside + countBananasList lost

/-- Independent `Banana` count over a sequence of nodes. -/
def countBananasList : List Thing → Nat
  | [] => 0
  | thing :: things => countBananas thing + countBananasList things

end

mutual

/-- Count of `Apple` leaves reachable without entering any `Pile`: a
`Pile` subtree contributes nothing, a `Chest` contributes both of its
compartments recursively. -/
def chestOnlyApples : Thing → Nat
  | .Chest chest => chestOnlyApplesChest chest
  | .Pile _ => 0
  | .Apple _ => 1
  | .Banana _ => 0

/-- Pile-excluding `Apple` count over a chest. -/
def chestOnlyApplesChest : Chest → Nat
  | .mk upper lower => chestOnlyApplesList upper + chestOnlyApplesList lower

/-- Pile-excluding `Apple` count over a sequence of nodes. -/
def chestOnlyApplesList : List Thing → Nat
  | [] => 0
  | thing :: things => chestOnlyApples thing + chestOnlyApplesList things

end

mutual

/-- Count of `Banana` leaves reachable without entering any `Pile`. -/
def chestOnlyBananas : Thing → Nat
  | .Chest chest => chestOnlyBananasChest chest
  | .Pile _ => 0
  | .Apple _ => 0
  | .Banana _ => 1

/-- Pile-excluding `Banana` count over a chest. -/
def chestOnlyBananasChest : Chest → Nat
  | .mk upper lower => chestOnlyBananasList upper + chestOnlyBananasList lower

/-- Pile-excluding `Banana` count over a sequence of nodes. -/
def chestOnlyBananasList : List Thing → Nat
  | [] => 0
  | thing :: things => chestOnlyBananas thing + chestOnlyBananasList things

end

/-- The quantity `N1` of the spec's pruning property, per its wording: the
number of `Apple` leaves appearing directly in a sequence of slots, at one
level only (nested container contents not counted). -/
def directSlotApples : List Thing → Nat
  | [] => 0
  | .Apple _ :: things => directSlotApples things + 1
  | _ :: things => directSlotApples things

/-- Per the spec's wording: `Banana` leaves directly in a sequence of
slots, one level only. -/
def directSlotBananas : List Thing → Nat
  | [] => 0
  | .Banana _ :: things => directSlotBananas things + 1
  | _ :: things => directSlotBananas things

/-- `N1` for a whole chest: leaves sitting directly in its own two slots. -/
def chestDirectSlotApples (c : Chest) : Nat :=
  directSlotApples (c.upper_compartment ++ c.lower_compartment)

/-- `N1` (bananas) for a whole chest. -/
def chestDirectSlotBananas (c : Chest) : Nat :=
  directSlotBananas (c.upper_compartment ++ c.lower_compartment)

mutual

/-- Empty out the contents of every `Pile` in a tree, keeping everything
reachable through `Chest` nodes untouched. -/
def prunePiles : Thing → Thing
  | .Chest chest => .Chest (prunePilesChest chest)
  | .Pile _ => .Pile (.mk [] [] [])
  | .Apple a => .Apple a
  | .Banana b => .Banana b

/-- `prunePiles` applied inside both compartments of a chest. -/
def prunePilesChest : Chest → Chest
  | .mk upper lower => .mk (prunePilesList upper) (prunePilesList lower)

/-- `prunePiles` applied to each node of a sequence. -/
def prunePilesList : List Thing → List Thing
  | [] => []
  | thing :: things => prunePiles thing :: prunePilesList things

end

/-- Which of the four handlers a node's variant tag selects. -/
inductive HandlerTag where
  | chest
  | pile
  | apple
  | banana
deriving DecidableEq, Repr

/-- The variant tag of a node, i.e. the handler `walk_things` selects
for it. -/
def tagOf : Thing → HandlerTag
  | .Chest _ => .chest
  | .Pile _ => .pile
  | .Apple _ => .apple
  | .Banana _ => .banana

/-- Instrument an arbitrary visitor so that, alongside its own state, it
records one trace entry per handler invocation, tagged with which handler
ran.  Used to observe the exact invocation sequence `walk_things`
performs. -/
def instrument {S V : Type} (vis : Visitor S V) : Visitor (S × List HandlerTag) V where
  visit_chest := fun p chest => (vis.visit_chest p.1 chest, p.2 ++ [.chest])
  visit_pile := fun p pile => (vis.visit_pile p.1 pile, p.2 ++ [.pile])
  visit_apple := fun p apple => (vis.visit_apple p.1 apple, p.2 ++ [.apple])
  visit_banana := fun p banana => (vis.visit_banana p.1 banana, p.2 ++ [.banana])
  value := fun p => vis.value p.1

/-- The generic one-step dispatch instantiated at `InventoryCounter` is
this visitor's specialised dispatch. -/
theorem dispatchOne_inventory (s : InventoryCounter) (t : Thing) :
    dispatchOne InventoryCounter.visitor s t = InventoryCounter.dispatch s t := by
  cases t <;> rfl

/-- The generic `walk_things` instantiated at `InventoryCounter` is this
visitor's specialised walk. -/
theorem walk_things_inventory (s : InventoryCounter) (ts : List Thing) :
    walk_things InventoryCounter.visitor s ts = InventoryCounter.walkThings s ts := by
  induction ts generalizing s with
  | nil => rfl
  | cons t ts ih =>
      simp only [walk_things, InventoryCounter.walkThings, dispatchOne_inventory]
      exact ih _

/-- Faithfulness of the embedding of `InventoryCounter::visit_chest`: it
is exactly `walk_chest(self, v)` at this visitor, as in the source. -/
theorem inventory_visit_chest_is_walk_chest (s : InventoryCounter) (c : Chest) :
    InventoryCounter.visit_chest s c = walk_chest InventoryCounter.visitor s c := by
  cases c with
  | mk upper lower =>
      simp only [walk_chest, Chest.upper_compartment, Chest.lower_compartment,
        walk_things_inventory, InventoryCounter.visit_chest]

mutual

/-- One `InventoryCounter` dispatch step adds the subtree's apple count. -/
theorem InventoryCounter.dispatch_apples : ∀ (s : InventoryCounter) (t : Thing),
    (InventoryCounter.dispatch s t).apples = s.apples + countApples t
  | s, .Chest c => by
      simp [InventoryCounter.dispatch, countApples, InventoryCounter.visit_chest_apples s c]
  | s, .Pile p => by
      simp [InventoryCounter.dispatch, countApples, InventoryCounter.visit_pile_apples s p]
  | s, .Apple a => by
      simp [InventoryCounter.dispatch, InventoryCounter.visit_apple, countApples]
  | s, .Banana b => by
      simp [InventoryCounter.dispatch, InventoryCounter.visit_banana, countApples]

/-- Walking a sequence with `InventoryCounter` adds its apple count. -/
theorem InventoryCounter.walkThings_apples : ∀ (s : InventoryCounter) (ts : List Thing),
    (InventoryCounter.walkThings s ts).apples = s.apples + countApplesList ts
  | s, [] => by simp [InventoryCounter.walkThings, countApplesList]
  | s, t :: ts => by
      simp only [InventoryCounter.walkThings]
      rw [InventoryCounter.walkThings_apples _ ts, InventoryCounter.dispatch_apples s t]
      simp only [countApplesList]
      omega

/-- `InventoryCounter::visit_chest` adds the chest's apple count. -/
theorem InventoryCounter.visit_chest_apples : ∀ (s : InventoryCounter) (c : Chest),
    (InventoryCounter.visit_chest s c).apples = s.apples + countApplesChest c
  | s, .mk upper lower => by
      simp only [InventoryCounter.visit_chest, countApplesChest]
      rw [InventoryCounter.walkThings_apples _ lower, InventoryCounter.walkThings_apples s upper]
      omega

/-- `InventoryCounter::visit_pile` adds the pile's apple count. -/
theorem InventoryCounter.visit_pile_apples : ∀ (s : InventoryCounter) (p : Pile),
    (InventoryCounter.visit_pile s p).apples = s.apples + countApplesPile p
  | s, .mk surface inside lost => by
      simp only [InventoryCounter.visit_pile, countApplesPile]
      rw [InventoryCounter.walkThings_apples _ lost, InventoryCounter.walkThings_apples _ inside,
        InventoryCounter.walkThings_apples s surface]
      omega

end

mutual

/-- One `InventoryCounter` dispatch step adds the subtree's banana count. -/
theorem InventoryCounter.dispatch_bananas : ∀ (s : InventoryCounter) (t : Thing),
    (InventoryCounter.dispatch s t).bananas = s.bananas + countBananas t
  | s, .Chest c => by
      simp [InventoryCounter.dispatch, countBananas, InventoryCounter.visit_chest_bananas s c]
  | s, .Pile p => by
      simp [InventoryCounter.dispatch, countBananas, InventoryCounter.visit_pile_bananas s p]
  | s, .Apple a => by
      simp [InventoryCounter.dispatch, InventoryCounter.visit_apple, countBananas]
  | s, .Banana b => by
      simp [InventoryCounter.dispatch, InventoryCounter.visit_banana, countBananas]

/-- Walking a sequence with `InventoryCounter` adds its banana count. -/
theorem InventoryCounter.walkThings_bananas : ∀ (s : InventoryCounter) (ts : List Thing),
    (InventoryCounter.walkThings s ts).bananas = s.bananas + countBananasList ts
  | s, [] => by simp [InventoryCounter.walkThings, countBananasList]
  | s, t :: ts => by
      simp only [InventoryCounter.walkThings]
      rw [InventoryCounter.walkThings_bananas _ ts, InventoryCounter.dispatch_bananas s t]
      simp only [countBananasList]
      omega

/-- `InventoryCounter::visit_chest` adds the chest's banana count. -/
theorem InventoryCounter.visit_chest_bananas : ∀ (s : InventoryCounter) (c : Chest),
    (InventoryCounter.visit_chest s c).bananas = s.bananas + countBananasChest c
  | s, .mk upper lower => by
      simp only [InventoryCounter.visit_chest, countBananasChest]
      rw [InventoryCounter.walkThings_bananas _ lower, InventoryCounter.walkThings_bananas s upper]
      omega

/-- `InventoryCounter::visit_pile` adds the pile's banana count. -/
theorem InventoryCounter.visit_pile_bananas : ∀ (s : InventoryCounter) (p : Pile),
    (InventoryCounter.visit_pile s p).bananas = s.bananas + countBananasPile p
  | s, .mk surface inside lost => by
      simp only [InventoryCounter.visit_pile, countBananasPile]
      rw [InventoryCounter.walkThings_bananas _ lost, InventoryCounter.walkThings_bananas _ inside,
        InventoryCounter.walkThings_bananas s surface]
      omega

end

/-- The generic one-step dispatch instantiated at `OnlyCheckChests` is
this visitor's specialised dispatch (with the default no-op on piles). -/
theorem dispatchOne_onlyChests (s : OnlyCheckChests) (t : Thing) :
    dispatchOne OnlyCheckChests.visitor s t = OnlyCheckChests.dispatch s t := by
  cases t <;> rfl

/-- The generic `walk_things` instantiated at `OnlyCheckChests` is this
visitor's specialised walk. -/
theorem walk_things_onlyChests (s : OnlyCheckChests) (ts : List Thing) :
    walk_things OnlyCheckChests.visitor s ts = OnlyCheckChests.walkThings s ts := by
  induction ts generalizing s with
  | nil => rfl
  | cons t ts ih =>
      simp only [walk_things, OnlyCheckChests.walkThings, dispatchOne_onlyChests]
      exact ih _

/-- Faithfulness of the embedding of `OnlyCheckChests::visit_chest`: it is
exactly `walk_things` on the upper compartment followed by `walk_things`
on the lower compartment, as in the source. -/
theorem onlyChests_visit_chest_is_two_walks (s : OnlyCheckChests) (c : Chest) :
    OnlyCheckChests.visit_chest s c =
      walk_things OnlyCheckChests.visitor
        (walk_things OnlyCheckChests.visitor s c.upper_compartment) c.lower_compartment := by
  cases c with
  | mk upper lower =>
      simp only [Chest.upper_compartment, Chest.lower_compartment,
        walk_things_onlyChests, OnlyCheckChests.visit_chest]

mutual

/-- One `OnlyCheckChests` dispatch step adds the subtree's pile-excluding
apple count. -/
theorem OnlyCheckChests.dispatch_apples_pruned : ∀ (s : OnlyCheckChests) (t : Thing),
    (OnlyCheckChests.dispatch s t).apples = s.apples + chestOnlyApples t
  | s, .Chest c => by
      simp [OnlyCheckChests.dispatch, chestOnlyApples, OnlyCheckChests.visit_chest_apples_pruned s c]
  | s, .Pile p => by
      simp [OnlyCheckChests.dispatch, chestOnlyApples]
  | s, .Apple a => by
      simp [OnlyCheckChests.dispatch, OnlyCheckChests.visit_apple, chestOnlyApples]
  | s, .Banana b => by
      simp [OnlyCheckChests.dispatch, OnlyCheckChests.visit_banana, chestOnlyApples]

/-- Walking a sequence with `OnlyCheckChests` adds its pile-excluding
apple count. -/
theorem OnlyCheckChests.walkThings_apples_pruned : ∀ (s : OnlyCheckChests) (ts : List Thing),
    (OnlyCheckChests.walkThings s ts).apples = s.apples + chestOnlyApplesList ts
  | s, [] => by simp [OnlyCheckChests.walkThings, chestOnlyApplesList]
  | s, t :: ts => by
      simp only [OnlyCheckChests.walkThings]
      rw [OnlyCheckChests.walkThings_apples_pruned _ ts, OnlyCheckChests.dispatch_apples_pruned s t]
      simp only [chestOnlyApplesList]
      omega

/-- `OnlyCheckChests::visit_chest` adds the chest's pile-excluding apple
count. -/
theorem OnlyCheckChests.visit_chest_apples_pruned : ∀ (s : OnlyCheckChests) (c : Chest),
    (OnlyCheckChests.visit_chest s c).apples = s.apples + chestOnlyApplesChest c
  | s, .mk upper lower => by
      simp only [OnlyCheckChests.visit_chest, chestOnlyApplesChest]
      rw [OnlyCheckChests.walkThings_apples_pruned _ lower, OnlyCheckChests.walkThings_apples_pruned s upper]
      omega

end

mutual

/-- One `OnlyCheckChests` dispatch step adds the subtree's pile-excluding
banana count. -/
theorem OnlyCheckChests.dispatch_bananas_pruned : ∀ (s : OnlyCheckChests) (t : Thing),
    (OnlyCheckChests.dispatch s t).bananas = s.bananas + chestOnlyBananas t
  | s, .Chest c => by
      simp [OnlyCheckChests.dispatch, chestOnlyBananas, OnlyCheckChests.visit_chest_bananas_pruned s c]
  | s, .Pile p => by
      simp [OnlyCheckChests.dispatch, chestOnlyBananas]
  | s, .Apple a => by
      simp [OnlyCheckChests.dispatch, OnlyCheckChests.visit_apple, chestOnlyBananas]
  | s, .Banana b => by
      simp [OnlyCheckChests.dispatch, OnlyCheckChests.visit_banana, chestOnlyBananas]

/-- Walking a sequence with `OnlyCheckChests` adds its pile-excluding
banana count. -/
theorem OnlyCheckChests.walkThings_bananas_pruned : ∀ (s : OnlyCheckChests) (ts : List Thing),
    (OnlyCheckChests.walkThings s ts).bananas = s.bananas + chestOnlyBananasList ts
  | s, [] => by simp [OnlyCheckChests.walkThings, chestOnlyBananasList]
  | s, t :: ts => by
      simp only [OnlyCheckChests.walkThings]
      rw [OnlyCheckChests.walkThings_bananas_pruned _ ts, OnlyCheckChests.dispatch_bananas_pruned s t]
      simp only [chestOnlyBananasList]
      omega

/-- `OnlyCheckChests::visit_chest` adds the chest's pile-excluding banana
count. -/
theorem OnlyCheckChests.visit_chest_bananas_pruned : ∀ (s : OnlyCheckChests) (c : Chest),
    (OnlyCheckChests.visit_chest s c).bananas = s.bananas + chestOnlyBananasChest c
  | s, .mk upper lower => by
      simp only [OnlyCheckChests.visit_chest, chestOnlyBananasChest]
      rw [OnlyCheckChests.walkThings_bananas_pruned _ lower, OnlyCheckChests.walkThings_bananas_pruned s upper]
      omega

end

mutual

/-- Emptying piles does not change the pile-excluding apple count of a
node. -/
theorem chestOnlyApples_prune : ∀ (t : Thing),
    chestOnlyApples (prunePiles t) = chestOnlyApples t
  | .Chest c => by simp [prunePiles, chestOnlyApples, chestOnlyApplesChest_prune c]
  | .Pile p => by simp [prunePiles, chestOnlyApples]
  | .Apple a => by simp [prunePiles]
  | .Banana b => by simp [prunePiles]

/-- Emptying piles does not change the pile-excluding apple count of a
chest. -/
theorem chestOnlyApplesChest_prune : ∀ (c : Chest),
    chestOnlyApplesChest (prunePilesChest c) = chestOnlyApplesChest c
  | .mk upper lower => by
      simp [prunePilesChest, chestOnlyApplesChest,
        chestOnlyApplesList_prune upper, chestOnlyApplesList_prune lower]

/-- Emptying piles does not change the pile-excluding apple count of a
sequence. -/
theorem chestOnlyApplesList_prune : ∀ (ts : List Thing),
    chestOnlyApplesList (prunePilesList ts) = chestOnlyApplesList ts
  | [] => by simp [prunePilesList]
  | t :: ts => by
      simp [prunePilesList, chestOnlyApplesList,
        chestOnlyApples_prune t, chestOnlyApplesList_prune ts]

end

mutual

/-- Emptying piles does not change the pile-excluding banana count of a
node. -/
theorem chestOnlyBananas_prune : ∀ (t : Thing),
    chestOnlyBananas (prunePiles t) = chestOnlyBananas t
  | .Chest c => by simp [prunePiles, chestOnlyBananas, chestOnlyBananasChest_prune c]
  | .Pile p => by simp [prunePiles, chestOnlyBananas]
  | .Apple a => by simp [prunePiles]
  | .Banana b => by simp [prunePiles]

/-- Emptying piles does not change the pile-excluding banana count of a
chest. -/
theorem chestOnlyBananasChest_prune : ∀ (c : Chest),
    chestOnlyBananasChest (prunePilesChest c) = chestOnlyBananasChest c
  | .mk upper lower => by
      simp [prunePilesChest, chestOnlyBananasChest,
        chestOnlyBananasList_prune upper, chestOnlyBananasList_prune lower]

/-- Emptying piles does not change the pile-excluding banana count of a
sequence. -/
theorem chestOnlyBananasList_prune : ∀ (ts : List Thing),
    chestOnlyBananasList (prunePilesList ts) = chestOnlyBananasList ts
  | [] => by simp [prunePilesList]
  | t :: ts => by
      simp [prunePilesList, chestOnlyBananasList,
        chestOnlyBananas_prune t, chestOnlyBananasList_prune ts]

end

/-- One dispatch step of an instrumented visitor: the underlying visitor's
step on the state component, plus exactly one trace entry carrying the
node's variant tag. -/
theorem dispatchOne_instrument {S V : Type} (vis : Visitor S V) (s : S)
    (tr : List HandlerTag) (t : Thing) :
    dispatchOne (instrument vis) (s, tr) t = (dispatchOne vis s t, tr ++ [tagOf t]) := by
  cases t <;> rfl

/-- Walking a sequence with an instrumented visitor: the underlying walk
on the state component, and a trace extended by exactly one entry per node
of the sequence, in sequence order, each entry being that node's tag. -/
theorem walk_things_instrument_trace {S V : Type} (vis : Visitor S V) (s : S)
    (tr : List HandlerTag) (ts : List Thing) :
    walk_things (instrument vis) (s, tr) ts =
      (walk_things vis s ts, tr ++ ts.map tagOf) := by
  induction ts generalizing s tr with
  | nil => simp [walk_things]
  | cons t ts ih =>
      simp only [walk_things, dispatchOne_instrument, List.map_cons]
      rw [ih]
      simp

/-- C1: for every tree of `Thing` nodes, the full counter visitor
`InventoryCounter`, started from its default state via `visit_chest` (or
via `walk_things` over any sequence of nodes), ends with `apples` equal to
the number of `Apple` leaves and `bananas` equal to the number of `Banana`
leaves, as computed by the independent recursive leaf counts. -/
theorem C1_full_counter_matches_leaf_counts :
    (∀ c : Chest,
      (InventoryCounter.visit_chest InventoryCounter.mkDefault c).apples = countApplesChest c ∧
      (InventoryCounter.visit_chest InventoryCounter.mkDefault c).bananas = countBananasChest c) ∧
    (∀ ts : List Thing,
      (walk_things InventoryCounter.visitor InventoryCounter.mkDefault ts).apples =
        countApplesList ts ∧
      (walk_things InventoryCounter.visitor InventoryCounter.mkDefault ts).bananas =
        countBananasList ts) := by
  refine ⟨fun c => ⟨?_, ?_⟩, fun ts => ⟨?_, ?_⟩⟩
  · rw [InventoryCounter.visit_chest_apples]; simp [InventoryCounter.mkDefault]
  · rw [InventoryCounter.visit_chest_bananas]; simp [InventoryCounter.mkDefault]
  · rw [walk_things_inventory, InventoryCounter.walkThings_apples]
    simp [InventoryCounter.mkDefault]
  · rw [walk_things_inventory, InventoryCounter.walkThings_bananas]
    simp [InventoryCounter.mkDefault]

/-- A chest whose only content is a nested chest holding one apple: its
direct slots hold no leaf at all, yet `OnlyCheckChests` descends into the
nested chest and counts the apple. -/
def cexChest : Chest :=
  .mk [Thing.Chest (.mk [Thing.Apple .mk] [])] []

/-- C2 counterexample: on `cexChest` the pruning visitor reports
`(1, 0)`, not the `(0, 0)` leaves of the top-level container's direct
slots — the claim that it reports exactly the direct-slot leaf counts and
includes no nested leaf is false, because `OnlyCheckChests` recurses into
nested `Chest` nodes (it prunes only `Pile`s). -/
theorem C2_counterexample_nested_chest :
    ¬ (OnlyCheckChests.value (OnlyCheckChests.visit_chest OnlyCheckChests.mkDefault cexChest) =
        (chestDirectSlotApples cexChest, chestDirectSlotBananas cexChest)) := by
  decide

/-- C2 (amended): for every tree, the pruning visitor `OnlyCheckChests`
reports exactly the number of `Apple` and `Banana` leaves reachable
without entering any `Pile` (the leaves of the top-level chest's slots
and, recursively, of nested `Chest`s), and includes none of the leaves
inside any `Pile`: emptying every pile leaves its report unchanged. -/
theorem C2_amended_pruning_counts :
    ∀ c : Chest,
      OnlyCheckChests.value (OnlyCheckChests.visit_chest OnlyCheckChests.mkDefault c) =
        (chestOnlyApplesChest c, chestOnlyBananasChest c) ∧
      OnlyCheckChests.value
          (OnlyCheckChests.visit_chest OnlyCheckChests.mkDefault (prunePilesChest c)) =
        OnlyCheckChests.value (OnlyCheckChests.visit_chest OnlyCheckChests.mkDefault c) := by
  have h : ∀ d : Chest,
      OnlyCheckChests.value (OnlyCheckChests.visit_chest OnlyCheckChests.mkDefault d) =
        (chestOnlyApplesChest d, chestOnlyBananasChest d) := by
    intro d
    simp [OnlyCheckChests.value, OnlyCheckChests.visit_chest_apples_pruned,
      OnlyCheckChests.visit_chest_bananas_pruned, OnlyCheckChests.mkDefault]
  intro c
  refine ⟨h c, ?_⟩
  rw [h c, h (prunePilesChest c), chestOnlyApplesChest_prune, chestOnlyBananasChest_prune]

/-- C3: on the hardcoded sample tree of `main`, the full counter ends with
5 apples and 4 bananas, and `value()` is the string
`"5 apples and 4 bananas"`. -/
theorem C3_sample_tree_inventory :
    (InventoryCounter.visit_chest InventoryCounter.mkDefault sampleChest).apples = 5 ∧
    (InventoryCounter.visit_chest InventoryCounter.mkDefault sampleChest).bananas = 4 ∧
    InventoryCounter.value (InventoryCounter.visit_chest InventoryCounter.mkDefault sampleChest) =
      "5 apples and 4 bananas" := by
  refine ⟨by decide, by decide, by decide⟩

/-- C4: on the hardcoded sample tree of `main`, the pruning visitor ends
with 2 apples and 2 bananas, and `value()` is the pair `(2, 2)`. -/
theorem C4_sample_tree_only_chests :
    (OnlyCheckChests.visit_chest OnlyCheckChests.mkDefault sampleChest).apples = 2 ∧
    (OnlyCheckChests.visit_chest OnlyCheckChests.mkDefault sampleChest).bananas = 2 ∧
    OnlyCheckChests.value (OnlyCheckChests.visit_chest OnlyCheckChests.mkDefault sampleChest) =
      (2, 2) := by
  refine ⟨by decide, by decide, by decide⟩

/-- C5: for every visitor and every sequence of nodes, `walk_things`
performs exactly one handler invocation per node of the sequence — in
sequence order, the handler selected by the node's variant tag — and
nothing else: the instrumented run records the trace `ts.map tagOf`, one
entry per node, which depends only on the top-level nodes' tags (never on
their children, since `walk_things` itself does not descend). -/
theorem C5_walk_things_single_dispatch :
    ∀ {S V : Type} (vis : Visitor S V) (s : S) (tr : List HandlerTag) (ts : List Thing),
      walk_things (instrument vis) (s, tr) ts =
        (walk_things vis s ts, tr ++ ts.map tagOf) ∧
      (ts.map tagOf).length = ts.length := by
  intro S V vis s tr ts
  exact ⟨walk_things_instrument_trace vis s tr ts, List.length_map ts tagOf⟩

/-- C6: for every visitor, state and chest, `walk_chest` equals
`walk_things` on the upper compartment followed by `walk_things` on the
lower compartment, in that fixed order — this is its definition, so the
resulting visitor state is identical under the two formulations. -/
theorem C6_walk_chest_upper_then_lower :
    ∀ {S V : Type} (vis : Visitor S V) (s : S) (c : Chest),
      walk_chest vis s c =
        walk_things vis (walk_things vis s c.upper_compartment) c.lower_compartment :=
  fun _ _ _ => rfl

/-- C7: for every visitor, `walk_things` on the empty sequence returns the
state unchanged and invokes no handler (the instrumented trace stays
empty). -/
theorem C7_walk_things_empty_noop :
    ∀ {S V : Type} (vis : Visitor S V) (s : S),
      walk_things vis s [] = s ∧
      walk_things (instrument vis) (s, []) [] = (s, []) :=
  fun _ _ => ⟨rfl, rfl⟩

/-- C8: running two fresh instances of the same visitor type (each from
its derived default zero state) over the same tree yields identical
`value()` results — the embedding of the traversal is a pure function of
the tree, with no global state, so determinism holds definitionally. -/
theorem C8_two_fresh_runs_agree :
    ∀ c : Chest,
      InventoryCounter.value (InventoryCounter.visit_chest InventoryCounter.mkDefault c) =
        InventoryCounter.value (InventoryCounter.visit_chest InventoryCounter.mkDefault c) ∧
      OnlyCheckChests.value (OnlyCheckChests.visit_chest OnlyCheckChests.mkDefault c) =
        OnlyCheckChests.value (OnlyCheckChests.visit_chest OnlyCheckChests.mkDefault c) :=
  fun _ => ⟨rfl, rfl⟩

/-- C9: walking a concatenated sequence is the sequential composition of
walking its parts: `walk_things vis s (xs ++ ys)` equals walking `xs`
first and then `ys` from the resulting state. -/
theorem C9_walk_things_append :
    ∀ {S V : Type} (vis : Visitor S V) (s : S) (xs ys : List Thing),
      walk_things vis s (xs ++ ys) = walk_things vis (walk_things vis s xs) ys := by
  intro S V vis s xs ys
  induction xs generalizing s with
  | nil => rfl
  | cons x xs ih =>
      simp only [List.cons_append, walk_things]
      exact ih _

/-- C10: for both example visitors, `value()` is a pure read-out: its
result depends only on the current counters (two states agreeing on
`apples` and `bananas` give equal results), and repeated calls return
equal results; it takes the state immutably, so it cannot modify the
counters. -/
theorem C10_value_pure_readout :
    (∀ s₁ s₂ : InventoryCounter, s₁.apples = s₂.apples → s₁.bananas = s₂.bananas →
      InventoryCounter.value s₁ = InventoryCounter.value s₂) ∧
    (∀ s₁ s₂ : OnlyCheckChests, s₁.apples = s₂.apples → s₁.bananas = s₂.bananas →
      OnlyCheckChests.value s₁ = OnlyCheckChests.value s₂) ∧
    (∀ s : InventoryCounter, InventoryCounter.value s = InventoryCounter.value s) ∧
    (∀ s : OnlyCheckChests, OnlyCheckChests.value s = OnlyCheckChests.value s) := by
  refine ⟨?_, ?_, fun _ => rfl, fun _ => rfl⟩
  · intro s₁ s₂ h1 h2
    cases s₁; cases s₂
    simp_all [InventoryCounter.value]
  · intro s₁ s₂ h1 h2
    cases s₁; cases s₂
    simp_all [OnlyCheckChests.value]

/-- Witness for C10 at concrete states: the hypotheses hold at equal
counter values and the read-outs agree. -/
theorem C10_value_pure_readout_witness :
    InventoryCounter.value ⟨1, 2⟩ = InventoryCounter.value ⟨1, 2⟩ ∧
    OnlyCheckChests.value ⟨3, 4⟩ = OnlyCheckChests.value ⟨3, 4⟩ :=
  ⟨C10_value_pure_readout.1 ⟨1, 2⟩ ⟨1, 2⟩ rfl rfl,
   C10_value_pure_readout.2.1 ⟨3, 4⟩ ⟨3, 4⟩ rfl rfl⟩
